import Mathlib

/-
Shallow embedding of the B+ tree orchestrator of this repository
(src/src/index/b_plus_tree.cpp, class cmudb::BPlusTree).

Keys and record identifiers are embedded as Int (the integration tests
instantiate the template with integer-backed GenericKey and RID; the
comparator is the usual total order).  Page ids are Int, with
INVALID_PAGE_ID = -1 as in the C++ sources.

The page byte layout, the leaf/internal page classes and the buffer pool
manager are external collaborators of the orchestrator (they are not part
of src/); their operations are modelled from the specification, each such
definition carries a doc comment starting with "Modelled from the spec:".
Every function of b_plus_tree.cpp itself is translated statement by
statement from the source; src line numbers are given in the doc comments.

A fetch/allocate/unpin/delete event trace is threaded through the buffer
pool model so that the pin discipline of an operation can be stated.
Failure of the C++ code (dereferencing a null page returned by
FetchPage(INVALID_PAGE_ID), a failing assert, reading past the end of a
page) is embedded as Option.none.
-/

/-- Sentinel page id, from the C++ sources (INVALID_PAGE_ID = -1). -/
def INVALID_PAGE_ID : Int := -1

/-- Page id of the header page holding the root directory (HEADER_PAGE_ID = 0). -/
def HEADER_PAGE_ID : Int := 0

/-- Buffer pool events recorded by the model: page fetch (pin), page
allocation (NewPage, also pins), unpin with its dirty flag, and page
deletion. -/
inductive PageEvent where
  | fetch (pid : Int)
  | alloc (pid : Int)
  | unpin (pid : Int) (dirty : Bool)
  | delete (pid : Int)
deriving DecidableEq

/-- A B+ tree page interpreted as a node: a leaf page (sorted key/value
pairs plus the next-leaf link), an internal page (entry 0 carries a
sentinel key, entries pair separator keys with child page ids), or an
uninitialized page (fresh from NewPage, before Init has run). -/
inductive BPTNode where
  | leaf (parent : Int) (entries : List (Int × Int)) (next : Int)
  | internal (parent : Int) (entries : List (Int × Int))
  | uninit
deriving DecidableEq

/-- IsLeafPage of the page header; an uninitialized page reads as not-a-leaf. -/
def BPTNode.isLeafPage : BPTNode → Bool
  | BPTNode.leaf _ _ _ => true
  | BPTNode.internal _ _ => false
  | BPTNode.uninit => false

/-- GetParentPageId of the page header. -/
def BPTNode.parentId : BPTNode → Int
  | BPTNode.leaf p _ _ => p
  | BPTNode.internal p _ => p
  | BPTNode.uninit => INVALID_PAGE_ID

/-- The in-page entry array of either node kind. -/
def BPTNode.entries : BPTNode → List (Int × Int)
  | BPTNode.leaf _ es _ => es
  | BPTNode.internal _ es => es
  | BPTNode.uninit => []

/-- GetSize of the page header (number of stored entries). -/
def BPTNode.getSize (n : BPTNode) : Nat := n.entries.length

/-- SetParentPageId: replace the parent id, keeping the node kind. -/
def BPTNode.withParent : BPTNode → Int → BPTNode
  | BPTNode.leaf _ es nx, p => BPTNode.leaf p es nx
  | BPTNode.internal _ es, p => BPTNode.internal p es
  | BPTNode.uninit, _ => BPTNode.uninit

/-- Replace the entry array, keeping the node kind and header fields. -/
def BPTNode.withEntries : BPTNode → List (Int × Int) → BPTNode
  | BPTNode.leaf p _ nx, es => BPTNode.leaf p es nx
  | BPTNode.internal p _, es => BPTNode.internal p es
  | BPTNode.uninit, _ => BPTNode.uninit

/-- Look a page up by id in the page table of the buffer pool model. -/
def pageLookup (pid : Int) : List (Int × BPTNode) → Option BPTNode
  | [] => none
  | (q, n) :: rest => if pid = q then some n else pageLookup pid rest

/-- Overwrite the page with the given id (writing through an already
pinned pointer in the C++ code). -/
def writePages (pid : Int) (n : BPTNode) : List (Int × BPTNode) → List (Int × BPTNode)
  | [] => []
  | (q, old) :: rest =>
    if q = pid then (q, n) :: rest else (q, old) :: writePages pid n rest

/-- Remove the page with the given id from the page table. -/
def removePage (pid : Int) : List (Int × BPTNode) → List (Int × BPTNode)
  | [] => []
  | (q, old) :: rest =>
    if q = pid then rest else (q, old) :: removePage pid rest

/-- Modelled from the spec: the buffer pool manager (an external
collaborator, spec section 6) — its page table, the id it will hand out
next, and the pin/unpin event trace of the operations run against it. -/
structure BPM where
  pages : List (Int × BPTNode)
  nextPid : Int
  events : List PageEvent
deriving DecidableEq

/-- Modelled from the spec: fetch_page(page_id) pins and returns the page;
fetching a page id that is not in the pool (in particular the sentinel
INVALID_PAGE_ID) yields a null page, embedded as none. -/
def BPM.fetchPage (m : BPM) (pid : Int) : Option (BPTNode × BPM) :=
  match pageLookup pid m.pages with
  | some n => some (n, { m with events := m.events ++ [PageEvent.fetch pid] })
  | none => none

/-- Modelled from the spec: allocate_page() returns a fresh, pinned,
uninitialized page and its new id. -/
def BPM.newPage (m : BPM) : Int × BPM :=
  (m.nextPid,
   { pages := m.pages ++ [(m.nextPid, BPTNode.uninit)],
     nextPid := m.nextPid + 1,
     events := m.events ++ [PageEvent.alloc m.nextPid] })

/-- Modelled from the spec: unpin_page(page_id, is_dirty); only the event
trace changes. -/
def BPM.unpinPage (m : BPM) (pid : Int) (dirty : Bool) : BPM :=
  { m with events := m.events ++ [PageEvent.unpin pid dirty] }

/-- Write through an already pinned page pointer (a plain memory store in
the C++ code, so no buffer pool event is recorded). -/
def BPM.writePage (m : BPM) (pid : Int) (n : BPTNode) : BPM :=
  { m with pages := writePages pid n m.pages }

/-- SetParentPageId through an already pinned pointer. -/
def BPM.setParent (m : BPM) (pid newParent : Int) : BPM :=
  match pageLookup pid m.pages with
  | some n => m.writePage pid (n.withParent newParent)
  | none => m

/-- Modelled from the spec: delete_page(page_id); reports whether a page
was actually deleted. -/
def BPM.deletePage (m : BPM) (pid : Int) : Bool × BPM :=
  match pageLookup pid m.pages with
  | some _ =>
    (true, { pages := removePage pid m.pages, nextPid := m.nextPid,
             events := m.events ++ [PageEvent.delete pid] })
  | none => (false, m)

/-- The BPlusTree object of the orchestrator: the buffer pool it talks to,
root_page_id_, the root directory record for this index (the header page
content for index_name_), and the max_size the page classes were
configured with. -/
structure BPT where
  bpm : BPM
  root_page_id : Int
  headerEntry : Option Int
  maxSize : Nat
deriving DecidableEq

/-- Modelled from the spec: min_size of a page, conventionally
the ceiling of max_size / 2 (spec section 3). -/
def minSize (maxSize : Nat) : Nat := (maxSize + 1) / 2

/-- Modelled from the spec: ordered, duplicate-checked insert into the
entry array of a leaf page (spec sections 4.3 and 6); if the key already
exists the array is returned unchanged. -/
def leafInsertEntries (k v : Int) : List (Int × Int) → List (Int × Int)
  | [] => [(k, v)]
  | (k0, v0) :: rest =>
    if k < k0 then (k, v) :: (k0, v0) :: rest
    else if k = k0 then (k0, v0) :: rest
    else (k0, v0) :: leafInsertEntries k v rest

/-- Modelled from the spec: ordered removal of a key from the entry array
of a leaf page; a no-op when the key is absent (spec section 4.6). -/
def leafRemoveEntries (k : Int) : List (Int × Int) → List (Int × Int)
  | [] => []
  | (k0, v0) :: rest =>
    if k = k0 then rest else (k0, v0) :: leafRemoveEntries k rest

/-- Walk the separator entries keeping the child of the last separator
that is at most the search key. -/
def lookupFrom (k : Int) (cur : Int) : List (Int × Int) → Int
  | [] => cur
  | (k0, c) :: rest => if k0 ≤ k then lookupFrom k c rest else cur

/-- Modelled from the spec: Lookup of an internal page — standard
upper-bound child selection, where the key of entry 0 is a sentinel and
only its child pointer is meaningful; the child of the last separator
less than or equal to the search key wins (spec section 4.1). -/
def internalLookup (k : Int) (entries : List (Int × Int)) : Int :=
  match entries with
  | [] => INVALID_PAGE_ID
  | (_, c0) :: rest => lookupFrom k c0 rest

/-- Helper for valueIndex, carrying the index of the current entry. -/
def valueIndexAux (pid : Int) (i : Int) : List (Int × Int) → Int
  | [] => -1
  | (_, c) :: rest => if c = pid then i else valueIndexAux pid (i + 1) rest

/-- Modelled from the spec: ValueIndex of an internal page — the index of
the entry whose child pointer equals the given page id, -1 if absent. -/
def valueIndex (pid : Int) (entries : List (Int × Int)) : Int :=
  valueIndexAux pid 0 entries

/-- Modelled from the spec: ValueAt(i) of an internal page — the child
pointer of entry i (the C++ code only calls it with an in-bounds index;
out of bounds reads are given the sentinel). -/
def valueAt (i : Int) (entries : List (Int × Int)) : Int :=
  match ((entries.drop i.toNat).head?.map Prod.snd) with
  | some c => c
  | none => INVALID_PAGE_ID

/-- Modelled from the spec: overwrite the key of entry i, keeping its
child pointer (used for parent separator updates, spec section 4.9). -/
def setKeyAt (i : Int) (k : Int) : List (Int × Int) → List (Int × Int)
  | [] => []
  | (k0, v0) :: rest =>
    if i = 0 then (k, v0) :: rest else (k0, v0) :: setKeyAt (i - 1) k rest

/-- Modelled from the spec: InsertNodeAfter of an internal page — insert
the pair (key, newPid) immediately after the entry whose child pointer is
oldPid (spec section 4.5). -/
def insertNodeAfter (oldPid k newPid : Int) : List (Int × Int) → List (Int × Int)
  | [] => []
  | (k0, c) :: rest =>
    if c = oldPid then (k0, c) :: (k, newPid) :: rest
    else (k0, c) :: insertNodeAfter oldPid k newPid rest

/-- Key list of a leaf page entry array. -/
def entryKeys (es : List (Int × Int)) : List Int := es.map Prod.fst

/-- Strict sortedness of a key list, as a Boolean. -/
def strictlySorted : List Int → Bool
  | [] => true
  | [_] => true
  | a :: b :: rest => decide (a < b) && strictlySorted (b :: rest)

namespace BPlusTree

/-- IsEmpty (src lines 25-26): root_page_id_ == INVALID_PAGE_ID. -/
def IsEmpty (t : BPT) : Bool := decide (t.root_page_id = INVALID_PAGE_ID)

/-- GetValue (src lines 35-40): the body is a bare return false — the
result collection is never touched and no page is fetched. -/
def GetValue (t : BPT) (key : Int) (result : List Int) : Bool × List Int :=
  (false, result)

/-- UpdateRootPageId (src lines 377-388): fetch the header page, then
either InsertRecord (insert_record true) or UpdateRecord, and unpin the
header page dirtied.  The header page record operations themselves are
modelled from the spec (root directory, spec section 6): InsertRecord
creates the record only when none exists yet, UpdateRecord updates an
existing record and is a no-op when none exists. -/
def UpdateRootPageId (t : BPT) (insert_record : Bool) : BPT :=
  let m1 := { t.bpm with events := t.bpm.events ++ [PageEvent.fetch HEADER_PAGE_ID] }
  let header1 :=
    if insert_record then
      match t.headerEntry with
      | none => some t.root_page_id
      | some v => some v
    else
      match t.headerEntry with
      | none => none
      | some _ => some t.root_page_id
  { t with bpm := m1.unpinPage HEADER_PAGE_ID true, headerEntry := header1 }

/-- The root-to-leaf descent loop shared verbatim by InsertIntoLeaf (src
lines 99-105) and Remove (src lines 211-217): while the current page is
not a leaf, pick the next child with Lookup, unpin the current page (not
dirtied) and fetch the child.  The current page is already pinned on
entry; the reached leaf is returned still pinned.  The C++ while loop is
embedded with explicit fuel. -/
def findLeafLoop (k : Int) : Nat → BPM → Int → Option (Int × BPM)
  | 0, _, _ => none
  | Nat.succ fuel, m, pid =>
    match pageLookup pid m.pages with
    | none => none
    | some n =>
      if n.isLeafPage then some (pid, m)
      else
        match (m.unpinPage pid false).fetchPage (internalLookup k n.entries) with
        | none => none
        | some (_, m2) => findLeafLoop k fuel m2 (internalLookup k n.entries)

/-- Re-parent the children moved by an internal page split.  Modelled from
the spec: "for internal splits, additionally re-parent every moved child
to point at the new page" (spec section 4.4); each child is fetched,
updated and unpinned dirtied. -/
def reparentChildren (m : BPM) (newPid : Int) : List (Int × Int) → Option BPM
  | [] => some m
  | (_, c) :: rest =>
    match m.fetchPage c with
    | none => none
    | some (n, m1) =>
      reparentChildren ((m1.writePage c (n.withParent newPid)).unpinPage c true) newPid rest

/-- Split (src lines 128-143): allocate a new page, Init it with the same
kind and the parent id of the split node, then MoveHalfTo.  MoveHalfTo is
modelled from the spec (section 4.4): the new node receives the upper
ceil((max_size+1)/2) entries — at the moment of the call the node holds
max_size+1 entries, so it keeps the lower floor(n/2) and moves the upper
ceil(n/2); for leaves the next-leaf chain is relinked (the new node takes
over the old successor, the old node now points at the new one), for
internal pages every moved child is re-parented. -/
def Split (m : BPM) (pid : Int) : Option (Int × BPM) :=
  let pr := m.newPage
  let newPid := pr.1
  let m1 := pr.2
  match pageLookup pid m1.pages with
  | some (BPTNode.leaf parent entries next) =>
    let keep := entries.length / 2
    let m2 := m1.writePage newPid (BPTNode.leaf parent (entries.drop keep) next)
    let m3 := m2.writePage pid (BPTNode.leaf parent (entries.take keep) newPid)
    some (newPid, m3)
  | some (BPTNode.internal parent entries) =>
    let keep := entries.length / 2
    let m2 := m1.writePage newPid (BPTNode.internal parent (entries.drop keep))
    let m3 := m2.writePage pid (BPTNode.internal parent (entries.take keep))
    match reparentChildren m3 newPid (entries.drop keep) with
    | none => none
    | some m4 => some (newPid, m4)
  | _ => none

/-- InsertIntoParent (src lines 154-191).  If the old node has no parent,
allocate a new root, set root_page_id_, UpdateRootPageId(false), re-parent
both children and PopulateNewRoot (entry 0 keeps a sentinel key, written
as 0, with the old node as child; entry 1 pairs the separator with the new
node).  Otherwise fetch the parent, InsertNodeAfter, and if the parent now
exceeds max_size, Split it and recurse with KeyAt(0) of the new internal
sibling; finally unpin what was pinned here, dirtied.  The C++ recursion
is embedded with explicit fuel. -/
def InsertIntoParent : Nat → BPT → Int → Int → Int → Option BPT
  | 0, _, _, _, _ => none
  | Nat.succ fuel, t, oldPid, key, newPid =>
    match pageLookup oldPid t.bpm.pages with
    | none => none
    | some oldNode =>
      if oldNode.parentId = INVALID_PAGE_ID then
        let pr := t.bpm.newPage
        let rootPid := pr.1
        let m2 := pr.2.writePage rootPid (BPTNode.internal INVALID_PAGE_ID [])
        let t1 := UpdateRootPageId { t with bpm := m2, root_page_id := rootPid } false
        let m3 := (t1.bpm.setParent oldPid rootPid).setParent newPid rootPid
        let m4 := m3.writePage rootPid
          (BPTNode.internal INVALID_PAGE_ID [(0, oldPid), (key, newPid)])
        some { t1 with bpm := m4.unpinPage rootPid true }
      else
        match t.bpm.fetchPage oldNode.parentId with
        | none => none
        | some (BPTNode.internal pparent pentries, m1) =>
          let pentries1 := insertNodeAfter oldPid key newPid pentries
          let m2 := m1.writePage oldNode.parentId (BPTNode.internal pparent pentries1)
          if pentries1.length > t.maxSize then
            match Split m2 oldNode.parentId with
            | none => none
            | some (newPid2, m3) =>
              match pageLookup newPid2 m3.pages with
              | some (BPTNode.internal _ ((k0, _) :: _)) =>
                match InsertIntoParent fuel { t with bpm := m3 } oldNode.parentId k0 newPid2 with
                | none => none
                | some t3 =>
                  some { t3 with bpm :=
                    (t3.bpm.unpinPage newPid2 true).unpinPage oldNode.parentId true }
              | _ => none
          else
            some { t with bpm := m2.unpinPage oldNode.parentId true }
        | some _ => none

/-- InsertIntoLeaf (src lines 93-119): fetch the root, descend to the
leaf, do the ordered duplicate-checked insert, Split on overflow using
KeyAt(GetSize()-1) of the old (left) leaf — read after the split — as the
separator passed to InsertIntoParent, unpin the new sibling and the leaf
dirtied, and report whether the size changed. -/
def InsertIntoLeaf (fuel : Nat) (t : BPT) (key value : Int) : Option (Bool × BPT) :=
  match t.bpm.fetchPage t.root_page_id with
  | none => none
  | some (_, m0) =>
    match findLeafLoop key fuel m0 t.root_page_id with
    | none => none
    | some (pid, m1) =>
      match pageLookup pid m1.pages with
      | some (BPTNode.leaf parent entries next) =>
        let originalSize := entries.length
        let entries1 := leafInsertEntries key value entries
        let newSize := entries1.length
        let m2 := m1.writePage pid (BPTNode.leaf parent entries1 next)
        if newSize > t.maxSize then
          match Split m2 pid with
          | none => none
          | some (newPid, m3) =>
            match pageLookup pid m3.pages with
            | some (BPTNode.leaf _ entries2 _) =>
              match entries2.getLast? with
              | none => none
              | some lastE =>
                match InsertIntoParent fuel { t with bpm := m3 } pid lastE.1 newPid with
                | none => none
                | some t1 =>
                  some (decide (originalSize ≠ newSize),
                    { t1 with bpm := (t1.bpm.unpinPage newPid true).unpinPage pid true })
            | _ => none
        else
          some (decide (originalSize ≠ newSize),
            { t with bpm := m2.unpinPage pid true })
      | _ => none

/-- StartNewTree (src lines 69-83): assert the tree is empty, allocate a
fresh page, set root_page_id_, Init the page as a leaf with sentinel
parent, InsertIntoLeaf the pair, and unpin the page dirtied.  Note that
the source never calls UpdateRootPageId here. -/
def StartNewTree (fuel : Nat) (t : BPT) (key value : Int) : Option BPT :=
  if IsEmpty t then
    let pr := t.bpm.newPage
    let pid := pr.1
    let m2 := pr.2.writePage pid (BPTNode.leaf INVALID_PAGE_ID [] INVALID_PAGE_ID)
    match InsertIntoLeaf fuel { t with bpm := m2, root_page_id := pid } key value with
    | none => none
    | some (_, t2) => some { t2 with bpm := t2.bpm.unpinPage pid true }
  else none

/-- Insert (src lines 53-60): StartNewTree on an empty tree (returning
true), otherwise InsertIntoLeaf. -/
def Insert (fuel : Nat) (t : BPT) (key value : Int) : Option (Bool × BPT) :=
  if IsEmpty t then
    match StartNewTree fuel t key value with
    | none => none
    | some t1 => some (true, t1)
  else InsertIntoLeaf fuel t key value

/-- Modelled from the spec: move_first_to_end_of — move the first entry of
the donor to the end of the receiver and update the separator key in the
shared parent to the new first key of the donor (spec sections 4.9 and 6).
The parent is fetched and unpinned dirtied. -/
def MoveFirstToEndOf (m : BPM) (donorPid recvPid : Int) : Option BPM :=
  match pageLookup donorPid m.pages, pageLookup recvPid m.pages with
  | some donor, some recv =>
    match donor.entries with
    | e :: (k1, c1) :: rest =>
      let m1 := m.writePage donorPid (donor.withEntries ((k1, c1) :: rest))
      let m2 := m1.writePage recvPid (recv.withEntries (recv.entries ++ [e]))
      match m2.fetchPage donor.parentId with
      | some (BPTNode.internal pp pentries, m3) =>
        let m4 := m3.writePage donor.parentId
          (BPTNode.internal pp (setKeyAt (valueIndex donorPid pentries) k1 pentries))
        some (m4.unpinPage donor.parentId true)
      | _ => none
    | _ => none
  | _, _ => none

/-- Modelled from the spec: move_last_to_front_of — move the last entry of
the donor to the front of the receiver and update the separator key in the
shared parent to the new first key of the receiver (spec sections 4.9 and
6).  The parent is fetched and unpinned dirtied. -/
def MoveLastToFrontOf (m : BPM) (donorPid recvPid : Int) : Option BPM :=
  match pageLookup donorPid m.pages, pageLookup recvPid m.pages with
  | some donor, some recv =>
    match donor.entries.getLast? with
    | none => none
    | some e =>
      let m1 := m.writePage donorPid (donor.withEntries donor.entries.dropLast)
      let m2 := m1.writePage recvPid (recv.withEntries (e :: recv.entries))
      match m2.fetchPage recv.parentId with
      | some (BPTNode.internal pp pentries, m3) =>
        let m4 := m3.writePage recv.parentId
          (BPTNode.internal pp (setKeyAt (valueIndex recvPid pentries) e.1 pentries))
        some (m4.unpinPage recv.parentId true)
      | _ => none
  | _, _ => none

/-- Redistribute (src lines 309-319): index == 0 moves the first entry of
the sibling to the end of the node, otherwise the last entry of the
sibling to the front of the node. -/
def Redistribute (t : BPT) (neighborPid nodePid : Int) (index : Int) : Option BPT :=
  if index = 0 then
    match MoveFirstToEndOf t.bpm neighborPid nodePid with
    | none => none
    | some m => some { t with bpm := m }
  else
    match MoveLastToFrontOf t.bpm neighborPid nodePid with
    | none => none
    | some m => some { t with bpm := m }

/-- Coalesce (src lines 291-298): the body is a bare return false — no
entry is moved, no page is deleted, the parent is not touched. -/
def Coalesce (t : BPT) (neighborPid nodePid parentPid : Int) (index : Int) : Bool :=
  false

/-- AdjustRoot (src lines 330-333): the body is a bare return false — the
root is never replaced, never deleted, and root_page_id_ never becomes the
sentinel here. -/
def AdjustRoot (old_root_node : BPTNode) : Bool :=
  false

/-- The tail of CoalesceOrRedistribute after the left-sibling check (src
lines 260-276), reached both when there is no left sibling and when the
left sibling is at its minimum: check the right sibling, returning false
without moving any data when it is above its minimum (the redistribute
branch at src line 263-266 is an empty block), then
assert(leftSibling || rightSibling) and return true — no merge is
performed and neither the parent nor any sibling is changed. -/
def corRest (t : BPT) (nodePid : Int) (pentries : List (Int × Int)) (idx : Int)
    (hasLeft : Bool) : Option (Bool × BPT) :=
  if idx + 1 < (pentries.length : Int) then
    match t.bpm.fetchPage (valueAt (idx + 1) pentries) with
    | none => none
    | some (rightSibling, m2) =>
      if rightSibling.getSize > minSize t.maxSize then
        some (false, { t with bpm := m2 })
      else
        some (true, { t with bpm := m2 })
  else
    if hasLeft then some (true, t) else none

/-- CoalesceOrRedistribute (src lines 239-277): fetch the parent (a fetch
of the sentinel id when the node is the root, which dereferences a null
page), locate the node among the children, fetch the left sibling when it
exists and Redistribute(leftSibling, node, 0) when it is above its
minimum, otherwise fall through to the right-sibling check and the merge
branches, which move nothing and return true. -/
def CoalesceOrRedistribute (t : BPT) (nodePid : Int) : Option (Bool × BPT) :=
  match pageLookup nodePid t.bpm.pages with
  | none => none
  | some node =>
    match t.bpm.fetchPage node.parentId with
    | none => none
    | some (BPTNode.internal _ pentries, m1) =>
      let idx := valueIndex nodePid pentries
      if idx - 1 ≥ 0 then
        match m1.fetchPage (valueAt (idx - 1) pentries) with
        | none => none
        | some (leftSibling, m2) =>
          if leftSibling.getSize > minSize t.maxSize then
            match Redistribute { t with bpm := m2 } (valueAt (idx - 1) pentries) nodePid 0 with
            | none => none
            | some t1 => some (false, t1)
          else corRest { t with bpm := m2 } nodePid pentries idx true
      else corRest { t with bpm := m1 } nodePid pentries idx false
    | some _ => none

/-- Remove (src lines 203-230): return on an empty tree; descend to the
leaf, RemoveAndDeleteRecord, and when the new size is below min_size run
CoalesceOrRedistribute; when it reports that the page should be removed,
unpin it dirtied and DeletePage it (assert success) — and then the
trailing unpin at src line 229 unpins the same page id once more. -/
def Remove (fuel : Nat) (t : BPT) (key : Int) : Option BPT :=
  if IsEmpty t then some t
  else
    match t.bpm.fetchPage t.root_page_id with
    | none => none
    | some (_, m0) =>
      match findLeafLoop key fuel m0 t.root_page_id with
      | none => none
      | some (pid, m1) =>
        match pageLookup pid m1.pages with
        | some (BPTNode.leaf parent entries next) =>
          let entries1 := leafRemoveEntries key entries
          let t1 := { t with bpm := m1.writePage pid (BPTNode.leaf parent entries1 next) }
          if entries1.length < minSize t.maxSize then
            match CoalesceOrRedistribute t1 pid with
            | none => none
            | some (shouldRemovePage, t2) =>
              if shouldRemovePage then
                let dr := (t2.bpm.unpinPage pid true).deletePage pid
                if dr.1 then some { t2 with bpm := dr.2.unpinPage pid true }
                else none
              else some { t2 with bpm := t2.bpm.unpinPage pid true }
          else some { t1 with bpm := t1.bpm.unpinPage pid true }
        | _ => none

/-- The index iterator handle: the leaf page it stands on and the offset
inside that leaf.  Modelled from the spec (section 4.10); the
default-constructed iterator of the source stands on no page. -/
structure IndexIterator where
  leafPid : Int
  pos : Nat
deriving DecidableEq

/-- The default-constructed INDEXITERATOR_TYPE(): no leaf page, offset 0. -/
def IndexIterator.defaultIt : IndexIterator :=
  { leafPid := INVALID_PAGE_ID, pos := 0 }

/-- An iterator standing on no page is exhausted. -/
def IndexIterator.isEnd (it : IndexIterator) : Bool :=
  decide (it.leafPid = INVALID_PAGE_ID)

/-- Begin() (src line 344): returns a default-constructed iterator. -/
def Begin (t : BPT) : IndexIterator := IndexIterator.defaultIt

/-- Begin(key) (src lines 352-354): returns a default-constructed
iterator. -/
def BeginFrom (t : BPT) (key : Int) : IndexIterator := IndexIterator.defaultIt

/-- FindLeafPage (src lines 364-367): the body is a bare return nullptr. -/
def FindLeafPage (t : BPT) (key : Int) (leftMost : Bool) : Option Int := none

end BPlusTree

/-- The empty buffer pool; page id 0 is the header page, so fresh pages
start at 1. -/
def emptyBPM : BPM := { pages := [], nextPid := 1, events := [] }

/-- A freshly constructed, empty B+ tree with the given max_size. -/
def mkTree (maxSize : Nat) : BPT :=
  { bpm := emptyBPM, root_page_id := INVALID_PAGE_ID, headerEntry := none,
    maxSize := maxSize }

/-- Run a sequence of Insert calls (the shape of the bulk-load driver). -/
def insertList (fuel : Nat) (t : BPT) : List (Int × Int) → Option BPT
  | [] => some t
  | (k, v) :: rest =>
    match BPlusTree.Insert fuel t k v with
    | none => none
    | some (_, t1) => insertList fuel t1 rest

/-- Forget the event trace accumulated so far, to observe the events of a
single subsequent operation. -/
def BPT.clearEvents (t : BPT) : BPT :=
  { t with bpm := { t.bpm with events := [] } }

/-- A key is in the tree when some leaf page stores an entry for it. -/
def BPT.containsKey (t : BPT) (k : Int) : Bool :=
  t.bpm.pages.any (fun pr =>
    match pr.2 with
    | BPTNode.leaf _ es _ => es.any (fun e => decide (e.1 = k))
    | _ => false)

/-- Number of leaf entries across the whole tree carrying the given key
(1 everywhere for a unique-key index). -/
def countKey (t : BPT) (k : Int) : Nat :=
  (t.bpm.pages.map (fun pr =>
    match pr.2 with
    | BPTNode.leaf _ es _ => (es.filter (fun e => decide (e.1 = k))).length
    | _ => 0)).sum

/-- Every leaf page of the tree has strictly increasing keys. -/
def leafKeysSorted (t : BPT) : Bool :=
  t.bpm.pages.all (fun pr =>
    match pr.2 with
    | BPTNode.leaf _ es _ => strictlySorted (entryKeys es)
    | _ => true)

/-- A well-formed two-level tree with max_size 3 (min_size 2): page 3
underflows (one entry) and both of its siblings, pages 2 and 4, hold
exactly min_size entries, so no sibling can donate and a merge is
required. -/
def c4store : List (Int × BPTNode) :=
  [ (1, BPTNode.internal INVALID_PAGE_ID [(0, 2), (5, 3), (9, 4)]),
    (2, BPTNode.leaf 1 [(1, 10), (2, 20)] 3),
    (3, BPTNode.leaf 1 [(5, 50)] 4),
    (4, BPTNode.leaf 1 [(9, 90), (10, 100)] INVALID_PAGE_ID) ]

/-- The tree over c4store. -/
def c4tree : BPT :=
  { bpm := { pages := c4store, nextPid := 5, events := [] },
    root_page_id := 1, headerEntry := some 1, maxSize := 3 }

/-- A well-formed two-level tree with max_size 3 (min_size 2): page 3
underflows (one entry) and its left sibling, page 2, holds three entries —
one more than min_size — so redistribution from the left sibling applies. -/
def c5store : List (Int × BPTNode) :=
  [ (1, BPTNode.internal INVALID_PAGE_ID [(0, 2), (5, 3)]),
    (2, BPTNode.leaf 1 [(1, 10), (2, 20), (3, 30)] 3),
    (3, BPTNode.leaf 1 [(5, 50)] INVALID_PAGE_ID) ]

/-- The tree over c5store. -/
def c5tree : BPT :=
  { bpm := { pages := c5store, nextPid := 4, events := [] },
    root_page_id := 1, headerEntry := some 1, maxSize := 3 }

/-- A well-formed two-level store: an internal root (page 1) over a single
leaf (page 2). -/
def c10store : List (Int × BPTNode) :=
  [ (1, BPTNode.internal INVALID_PAGE_ID [(0, 2)]),
    (2, BPTNode.leaf 1 [(7, 70)] INVALID_PAGE_ID) ]

/-- A buffer pool holding c10store. -/
def c10m : BPM := { pages := c10store, nextPid := 3, events := [] }

/-- A successful page-table lookup means the pair is in the table. -/
theorem pageLookup_mem {pid : Int} {n : BPTNode} :
    ∀ {l : List (Int × BPTNode)}, pageLookup pid l = some n → (pid, n) ∈ l := by
  intro l
  induction l with
  | nil => intro h; simp [pageLookup] at h
  | cons hd tl ih =>
    obtain ⟨q, n0⟩ := hd
    intro h
    rw [pageLookup] at h
    by_cases hq : pid = q
    · rw [if_pos hq] at h
      have hn := Option.some.inj h
      subst hn
      subst hq
      exact List.mem_cons_self _ _
    · rw [if_neg hq] at h
      exact List.mem_cons_of_mem _ (ih h)

/-- C1: the claim states that GetValue(k) returns true and appends the
associated value for every key k currently in the tree, and false with
the result collection unchanged otherwise.  The source body of GetValue
(src lines 35-40) is a bare return false.  Counterexample at a concrete
input: after inserting (1, 10) into an empty tree with max_size 2, key 1
is in the tree, yet GetValue returns false and leaves the result
collection unchanged. -/
theorem C1_getValue_returns_false_for_present_key :
    (insertList 8 (mkTree 2) [(1, 10)]).map
      (fun t => (t.containsKey 1, BPlusTree.GetValue t 1 [])) =
      some (true, (false, [])) := by decide

/-- C2: inserting into an empty tree allocates a page, initializes it as a
leaf with sentinel parent, inserts the pair, sets it as root and returns
true — all of which hold below — but the claimed first-time persistence of
the root page id to the root directory never happens: StartNewTree (src
lines 69-83) contains no UpdateRootPageId call, so the directory record
is still absent afterwards. -/
theorem C2_startNewTree_skips_directory_record :
    (BPlusTree.Insert 8 (mkTree 2) 1 10).map (fun r =>
      (r.1, r.2.root_page_id, pageLookup r.2.root_page_id r.2.bpm.pages,
        r.2.headerEntry)) =
      some (true, 1,
        some (BPTNode.leaf INVALID_PAGE_ID [(1, 10)] INVALID_PAGE_ID), none) := by
  decide

/-- C3: the claim states that Insert returns false and changes nothing
when the key is already present.  Counterexample at a concrete input:
with max_size 2, inserting 1, 2, 3 splits the first leaf and src line 112
promotes the last key of the left half (key 1) as the separator while key
1 stays in the left leaf; a later Insert of key 1 descends to the right of
that separator, does not find the key there, inserts a second copy and
returns true.  Before the duplicate insert the tree holds one entry with
key 1, afterwards two. -/
theorem C3_duplicate_key_reinserted_after_split :
    ((insertList 8 (mkTree 2) [(1, 10), (2, 20), (3, 30)]).map
        (fun t => countKey t 1) = some 1) ∧
    ((insertList 8 (mkTree 2) [(1, 10), (2, 20), (3, 30)]).bind
        (fun t => BPlusTree.Insert 8 t 1 99)).map
        (fun r => (r.1, countKey r.2 1)) = some (true, 2) := by
  exact ⟨by decide, by decide⟩

/-- C4: the claim states that when no sibling can donate, the node is
merged into a sibling, the emptied page is deleted and the separator is
removed from the parent.  Counterexample at a concrete input: in c4tree,
page 3 underflows and both siblings hold exactly min_size entries;
CoalesceOrRedistribute (src lines 239-277) reaches the merge branches,
which are empty blocks, and returns true with the page table — siblings,
parent and the underflowing page — completely unchanged: nothing is
merged, no page is deleted, no parent entry is removed. -/
theorem C4_no_merge_when_siblings_at_minimum :
    (BPlusTree.CoalesceOrRedistribute c4tree 3).map
      (fun r => (r.1, r.2.bpm.pages)) = some (true, c4store) := by decide

/-- C5: the claim states that a left donor moves its last entry to the
front of the receiver, leaving all keys strictly sorted.  Counterexample
at a concrete input: in c5tree the left sibling (page 2, three entries)
is above min_size, and CoalesceOrRedistribute calls
Redistribute(leftSibling, node, 0) (src line 255), whose index-0 branch
moves the donor FIRST entry (1, 10) to the END of the receiver: the
receiver page 3 becomes [(5, 50), (1, 10)], whose keys are not sorted —
rather than [(3, 30), (5, 50)] as the claim requires. -/
theorem C5_redistribute_moves_first_entry_of_left_donor :
    (BPlusTree.CoalesceOrRedistribute c5tree 3).map (fun r =>
      (r.1, pageLookup 3 r.2.bpm.pages, pageLookup 2 r.2.bpm.pages,
        leafKeysSorted r.2)) =
      some (false,
        some (BPTNode.leaf 1 [(5, 50), (1, 10)] INVALID_PAGE_ID),
        some (BPTNode.leaf 1 [(2, 20), (3, 30)] 3),
        false) := by decide

/-- C6: the claim states that removing an absent key from a non-empty tree
changes nothing, triggers no rebalancing and completes.  Counterexample at
a concrete reachable state: insert (1, 10) into an empty tree with
max_size 4 (min_size 2); the root leaf holds one entry.  Remove(2) leaves
the leaf at size 1, which is below min_size — Remove (src line 221)
applies the minimum-size check to the root as well — so
CoalesceOrRedistribute is invoked on the root and fetches its parent page
id, the sentinel, dereferencing a null page: the operation aborts instead
of completing without effect. -/
theorem C6_remove_absent_key_dereferences_sentinel_parent :
    (insertList 8 (mkTree 4) [(1, 10)]).bind
      (fun t => BPlusTree.Remove 8 t 2) = none := by decide

/-- C7: the claim states that after removing the last key of a
single-entry tree, is_empty() is true and root_page_id is the sentinel,
via Adjust-Root.  Counterexample at a concrete reachable state: insert
(1, 10) into an empty tree with max_size 2 and Remove(1); the emptied
root leaf falls below min_size, CoalesceOrRedistribute fetches the
sentinel parent page id and the operation aborts — root_page_id never
becomes the sentinel.  AdjustRoot itself (src lines 330-333) is a stub
returning false and is never called by Remove. -/
theorem C7_remove_last_key_never_empties_tree :
    ((insertList 8 (mkTree 2) [(1, 10)]).bind
      (fun t => BPlusTree.Remove 8 t 1) = none) ∧
    BPlusTree.AdjustRoot (BPTNode.leaf INVALID_PAGE_ID [] INVALID_PAGE_ID) = false := by
  exact ⟨by decide, rfl⟩

/-- C8: the claim states that every fetched page is unpinned exactly once
per operation, dirty exactly when modified.  Counterexample at a concrete
reachable state: with max_size 2, insert 1, 2, 3 (building a root with two
leaves), remove 2, then observe the events of Remove(3).  The page-delete
path of Remove (src lines 222-229) unpins the leaf page 2 dirtied, deletes
it, and then the trailing unpin at src line 229 unpins the same page a
second time; meanwhile the parent (page 3) and left sibling (page 1)
fetched inside CoalesceOrRedistribute are never unpinned at all. -/
theorem C8_remove_unpins_deleted_page_twice :
    (((insertList 8 (mkTree 2) [(1, 10), (2, 20), (3, 30)]).bind
        (fun t => BPlusTree.Remove 8 t 2)).map BPT.clearEvents).bind
      (fun t => (BPlusTree.Remove 8 t 3).map (fun t2 => t2.bpm.events)) =
      some [PageEvent.fetch 3, PageEvent.unpin 3 false, PageEvent.fetch 2,
        PageEvent.fetch 3, PageEvent.fetch 1,
        PageEvent.unpin 2 true, PageEvent.delete 2, PageEvent.unpin 2 true] := by
  decide

/-- C9: the claim states that Begin() is positioned at the smallest key,
Begin(key) at the first entry at least the key, and FindLeafPage locates
the leaf.  Counterexample at a concrete input: on a tree containing key 1,
Begin() and Begin(1) (src lines 344 and 352-354) both return a
default-constructed, already exhausted iterator standing on no leaf page,
and FindLeafPage (src lines 364-367) returns null. -/
theorem C9_begin_returns_exhausted_iterator :
    (insertList 8 (mkTree 2) [(1, 10)]).map (fun t =>
      (t.containsKey 1, (BPlusTree.Begin t).isEnd, (BPlusTree.BeginFrom t 1).isEnd,
        BPlusTree.FindLeafPage t 1 true)) =
      some (true, true, true, none) := by decide

/-- C10: the root-to-leaf descent loop shared by InsertIntoLeaf and Remove
terminates on every well-formed tree: whenever every internal page of the
page table is mapped by a height function under which the child selected
by Lookup is strictly smaller, and every such child is present in the
table, the loop reaches a leaf page — still present in the unchanged page
table — within height-of-the-start-page many iterations. -/
theorem C10_descent_terminates (k : Int) (P : List (Int × BPTNode)) (h : Int → Nat)
    (hmem : ∀ pr ∈ P, pr.2.isLeafPage = false →
      (pageLookup (internalLookup k pr.2.entries) P).isSome = true)
    (hdec : ∀ pr ∈ P, pr.2.isLeafPage = false →
      h (internalLookup k pr.2.entries) < h pr.1)
    (fuel : Nat) (m : BPM) (pid : Int) (hP : m.pages = P)
    (hpid : (pageLookup pid P).isSome = true) (hfuel : h pid < fuel) :
    ∃ q m2, BPlusTree.findLeafLoop k fuel m pid = some (q, m2) ∧ m2.pages = P ∧
      ∃ n, pageLookup q P = some n ∧ n.isLeafPage = true := by
  induction fuel generalizing m pid with
  | zero => exact absurd hfuel (Nat.not_lt_zero _)
  | succ fuel ih =>
    obtain ⟨n, hn⟩ := Option.isSome_iff_exists.mp hpid
    by_cases hleaf : n.isLeafPage = true
    · refine ⟨pid, m, ?_, hP, n, hn, hleaf⟩
      simp [BPlusTree.findLeafLoop, hP, hn, hleaf]
    · have hleaf2 : n.isLeafPage = false := by simpa using hleaf
      have hmemP : (pid, n) ∈ P := pageLookup_mem hn
      have hnext := hmem (pid, n) hmemP hleaf2
      obtain ⟨n2, hn2⟩ := Option.isSome_iff_exists.mp hnext
      have hdec2 := hdec (pid, n) hmemP hleaf2
      have hfuel2 : h (internalLookup k n.entries) < fuel :=
        Nat.lt_of_lt_of_le hdec2 (Nat.lt_succ_iff.mp hfuel)
      obtain ⟨q, m2, hq, hqP, hres⟩ :=
        ih { pages := P, nextPid := m.nextPid,
             events := m.events ++ [PageEvent.unpin pid false] ++
               [PageEvent.fetch (internalLookup k n.entries)] }
          (internalLookup k n.entries) rfl hnext hfuel2
      refine ⟨q, m2, ?_, hqP, hres⟩
      simp only [BPlusTree.findLeafLoop, hP, hn, hleaf2, BPM.unpinPage, BPM.fetchPage,
        Bool.false_eq_true, if_false, hn2]
      exact hq

/-- Witness for C10 at a concrete input: descending for key 7 from the
internal root (page 1, height 1) of c10store with fuel 2 reaches the leaf
page 2. -/
theorem C10_descent_terminates_witness :
    ∃ q m2, BPlusTree.findLeafLoop 7 2 c10m 1 = some (q, m2) ∧ m2.pages = c10store ∧
      ∃ n, pageLookup q c10store = some n ∧ n.isLeafPage = true :=
  C10_descent_terminates 7 c10store (fun p => if p = 1 then 1 else 0)
    (by decide) (by decide) 2 c10m 1 rfl (by decide) (by decide)
